import Mathlib

set_option maxRecDepth 65536

/-!
Shallow embedding of the account-store logic of the shop backend
(`src/server.js`, Postgres variant, together with the SQLite variant in
`src/database.js`).  JavaScript strings are modelled as lists of
characters; the PBKDF2 and bcrypt primitives are abstract parameters;
fallible JavaScript code (code that can throw) is modelled with `Except`.
-/

namespace ShopBackend

/-- JavaScript strings, modelled as lists of characters. -/
abbrev Str := List Char

/-- Convenience conversion from Lean string literals. -/
def str (s : String) : Str := s.data

/-! ### Character-level helpers: `toLowerCase` and `trim` -/

/-- Lower-casing of one character, as JavaScript `toLowerCase` (and SQL
`LOWER`) acts on the ASCII range relevant to the backend's emails. -/
def charLower (c : Char) : Char :=
  if 65 ≤ c.toNat ∧ c.toNat ≤ 90 then Char.ofNat (c.toNat + 32) else c

/-- Whitespace characters stripped by JavaScript `String.prototype.trim`
(space, tab, line terminators, vertical tab, form feed, NBSP, BOM). -/
def isWsChar (c : Char) : Bool :=
  c.toNat == 32 || c.toNat == 9 || c.toNat == 10 || c.toNat == 13 ||
  c.toNat == 11 || c.toNat == 12 || c.toNat == 160 || c.toNat == 65279 ||
  c.toNat == 8232 || c.toNat == 8233

/-- JavaScript `s.toLowerCase()`. -/
def lowerStr (s : Str) : Str := s.map charLower

/-- JavaScript `s.trim()`: drop whitespace from both ends. -/
def trimStr (s : Str) : Str :=
  ((s.dropWhile isWsChar).reverse.dropWhile isWsChar).reverse

/-- Email normalisation used by the register route:
`email.trim().toLowerCase()`. -/
def normEmail (s : Str) : Str := lowerStr (trimStr s)

theorem toNat_charOfNat (n : Nat) (h : n < 55296) : (Char.ofNat n).toNat = n := by
  have hv : n.isValidChar := Or.inl h
  rw [Char.ofNat, dif_pos hv]
  rfl

theorem charLower_toNat_of_upper (c : Char) (h : 65 ≤ c.toNat ∧ c.toNat ≤ 90) :
    (charLower c).toNat = c.toNat + 32 := by
  have hval : c.toNat < 55296 := by
    have := c.val.toBitVec.isLt
    simp only [Char.toNat, UInt32.toNat] at *
    omega
  rw [charLower, if_pos h, toNat_charOfNat _ (by omega)]

theorem charLower_idem (c : Char) : charLower (charLower c) = charLower c := by
  by_cases h : 65 ≤ c.toNat ∧ c.toNat ≤ 90
  · have ht := charLower_toNat_of_upper c h
    show (if 65 ≤ (charLower c).toNat ∧ (charLower c).toNat ≤ 90 then
      Char.ofNat ((charLower c).toNat + 32) else charLower c) = charLower c
    rw [if_neg (by omega)]
  · show (if 65 ≤ (charLower c).toNat ∧ (charLower c).toNat ≤ 90 then
      Char.ofNat ((charLower c).toNat + 32) else charLower c) = charLower c
    rw [charLower, if_neg h, if_neg h]

theorem isWsChar_charLower (c : Char) : isWsChar (charLower c) = isWsChar c := by
  by_cases h : 65 ≤ c.toNat ∧ c.toNat ≤ 90
  · have ht := charLower_toNat_of_upper c h
    simp only [isWsChar, ht]
    have h1 : ∀ m : Nat, 97 ≤ m → m ≤ 122 →
        ((m == 32 || m == 9 || m == 10 || m == 13 || m == 11 || m == 12 ||
          m == 160 || m == 65279 || m == 8232 || m == 8233) = false) := by
      intro m hm1 hm2
      simp only [Bool.or_eq_false_iff, beq_eq_false_iff_ne, ne_eq]
      omega
    rw [h1 (c.toNat + 32) (by omega) (by omega)]
    have h2 : ∀ m : Nat, 65 ≤ m → m ≤ 90 →
        ((m == 32 || m == 9 || m == 10 || m == 13 || m == 11 || m == 12 ||
          m == 160 || m == 65279 || m == 8232 || m == 8233) = false) := by
      intro m hm1 hm2
      simp only [Bool.or_eq_false_iff, beq_eq_false_iff_ne, ne_eq]
      omega
    rw [h2 c.toNat h.1 h.2]
  · rw [charLower, if_neg h]

theorem lowerStr_idem (s : Str) : lowerStr (lowerStr s) = lowerStr s := by
  simp only [lowerStr, List.map_map]
  exact List.map_congr_left fun c _ => charLower_idem c

theorem dropWhile_dropWhile (p : Char → Bool) (l : Str) :
    (l.dropWhile p).dropWhile p = l.dropWhile p := by
  induction l with
  | nil => rfl
  | cons c cs ih =>
    by_cases h : p c
    · simp [List.dropWhile_cons, h, ih]
    · simp [List.dropWhile_cons, h]

theorem dropWhile_head?_false (p : Char → Bool) (l : Str) (a : Char)
    (h : (l.dropWhile p).head? = some a) : p a = false := by
  induction l with
  | nil => simp at h
  | cons c cs ih =>
    by_cases hc : p c
    · rw [List.dropWhile_cons, if_pos hc] at h
      exact ih h
    · rw [List.dropWhile_cons, if_neg hc] at h
      simp at h
      rw [← h]
      simp [hc]

theorem dropWhile_eq_self_of_head? (p : Char → Bool) (l : Str)
    (h : ∀ a, l.head? = some a → p a = false) : l.dropWhile p = l := by
  cases l with
  | nil => rfl
  | cons c cs =>
    rw [List.dropWhile_cons, if_neg]
    simp [h c rfl]

theorem getLast?_dropWhile (p : Char → Bool) (l : Str)
    (h : l.dropWhile p ≠ []) : (l.dropWhile p).getLast? = l.getLast? := by
  obtain ⟨t, ht⟩ := List.dropWhile_suffix (l := l) p
  conv_rhs => rw [← ht]
  rw [List.getLast?_append]
  cases hg : (l.dropWhile p).getLast? with
  | none => exact absurd (List.getLast?_eq_none_iff.mp hg) h
  | some a => rfl

theorem trimStr_lowerStr (s : Str) : trimStr (lowerStr s) = lowerStr (trimStr s) := by
  have hfun : (isWsChar ∘ charLower) = isWsChar := funext isWsChar_charLower
  have hdw : ∀ l : Str, (l.map charLower).dropWhile isWsChar =
      (l.dropWhile isWsChar).map charLower := by
    intro l
    rw [List.dropWhile_map, hfun]
  simp only [trimStr, lowerStr, hdw, ← List.map_reverse]

theorem trimStr_trimStr (s : Str) : trimStr (trimStr s) = trimStr s := by
  set w := isWsChar
  set A := s.dropWhile w with hA
  set C := A.reverse.dropWhile w with hC
  have hCC : C.dropWhile w = C := by rw [hC, dropWhile_dropWhile]
  have hfD : C.reverse.dropWhile w = C.reverse := by
    apply dropWhile_eq_self_of_head?
    intro a ha
    rcases eq_or_ne C [] with hCnil | hCne
    · rw [hCnil] at ha; simp at ha
    · rw [List.head?_reverse] at ha
      rw [hC, getLast?_dropWhile _ _ (hC ▸ hCne), List.getLast?_reverse] at ha
      exact dropWhile_head?_false w s a (hA ▸ ha)
  show ((C.reverse.dropWhile w).reverse.dropWhile w).reverse = C.reverse
  rw [hfD, List.reverse_reverse, hCC]

theorem trimStr_normEmail (x : Str) : trimStr (normEmail x) = normEmail x := by
  rw [normEmail, trimStr_lowerStr, trimStr_trimStr]

theorem lowerStr_normEmail (x : Str) : lowerStr (normEmail x) = normEmail x := by
  rw [normEmail, lowerStr_idem]

theorem normEmail_normEmail (x : Str) : normEmail (normEmail x) = normEmail x := by
  show lowerStr (trimStr (normEmail x)) = normEmail x
  rw [trimStr_normEmail, lowerStr_normEmail]

/-! ### JavaScript `split`, and hex encoding as done by Node `Buffer` -/

/-- JavaScript `s.split(sep)` for a one-character separator. -/
def splitOnChar (sep : Char) : Str → List Str
  | [] => [[]]
  | c :: cs =>
    if c = sep then [] :: splitOnChar sep cs
    else
      match splitOnChar sep cs with
      | [] => [[c]]
      | p :: ps => (c :: p) :: ps

theorem splitOnChar_ne_nil (sep : Char) (l : Str) : splitOnChar sep l ≠ [] := by
  cases l with
  | nil => simp [splitOnChar]
  | cons c cs =>
    rw [splitOnChar]
    by_cases h : c = sep
    · simp [h]
    · rw [if_neg h]
      cases splitOnChar sep cs <;> simp

theorem splitOnChar_of_not_mem (sep : Char) (l : Str) (h : sep ∉ l) :
    splitOnChar sep l = [l] := by
  induction l with
  | nil => rfl
  | cons c cs ih =>
    have hc : ¬ c = sep := fun hh => h (hh ▸ List.mem_cons_self c cs)
    rw [splitOnChar, if_neg hc, ih (fun hm => h (List.mem_cons_of_mem c hm))]

theorem splitOnChar_append (sep : Char) (a b : Str) (h : sep ∉ a) :
    splitOnChar sep (a ++ sep :: b) = a :: splitOnChar sep b := by
  induction a with
  | nil => simp [splitOnChar]
  | cons c cs ih =>
    have hc : ¬ c = sep := fun hh => h (hh ▸ List.mem_cons_self c cs)
    have ih' := ih (fun hm => h (List.mem_cons_of_mem c hm))
    rw [List.cons_append, splitOnChar, if_neg hc, ih']

/-- Hex digit characters, in value order. -/
def hexDigits : Str := str "0123456789abcdef"

/-- Hex digit character for a value below 16. -/
def hexDigitChar (n : Nat) : Char := hexDigits.getD n '0'

/-- Hex encoding of one byte, as `Buffer.prototype.toString("hex")`. -/
def hexEncodeByte (b : Nat) : Str := [hexDigitChar (b / 16 % 16), hexDigitChar (b % 16)]

/-- Hex encoding of a byte sequence (`buf.toString("hex")`). -/
def hexEncode (bs : List Nat) : Str := (bs.map hexEncodeByte).flatten

/-- Numeric value of a hex digit character, as Node `Buffer.from(s, "hex")`
accepts it (both cases). -/
def hexVal (c : Char) : Option Nat :=
  if 48 ≤ c.toNat ∧ c.toNat ≤ 57 then some (c.toNat - 48)
  else if 97 ≤ c.toNat ∧ c.toNat ≤ 102 then some (c.toNat - 87)
  else if 65 ≤ c.toNat ∧ c.toNat ≤ 70 then some (c.toNat - 55)
  else none

/-- Lenient hex decoding as Node `Buffer.from(s, "hex")`: consume two-digit
pairs and stop silently at the first invalid pair or odd tail. -/
def decodeHexPairs : Str → List Nat
  | c1 :: c2 :: rest =>
    match hexVal c1, hexVal c2 with
    | some h, some l => (16 * h + l) :: decodeHexPairs rest
    | _, _ => []
  | _ => []

theorem hexDigitChar_ne_colon (n : Nat) (h : n < 16) : hexDigitChar n ≠ ':' := by
  have : ∀ k, k < 16 → hexDigitChar k ≠ ':' := by decide
  exact this n h

theorem colon_not_mem_hexEncode (bs : List Nat) : ':' ∉ hexEncode bs := by
  intro hmem
  rw [hexEncode, List.mem_flatten] at hmem
  obtain ⟨l, hl, hcl⟩ := hmem
  rw [List.mem_map] at hl
  obtain ⟨b, _, hb⟩ := hl
  rw [← hb, hexEncodeByte, List.mem_cons, List.mem_cons] at hcl
  rcases hcl with h1 | h1 | h1
  · exact hexDigitChar_ne_colon _ (Nat.mod_lt _ (by omega)) h1.symm
  · exact hexDigitChar_ne_colon _ (Nat.mod_lt _ (by omega)) h1.symm
  · simp at h1

/-! ### Credential hashing and verification (`src/server.js` lines 121-139)

The PBKDF2 primitive `crypto.pbkdf2Sync(password, salt, 10000, 64, "sha512")`
is delegated to the `crypto` library; it is modelled as an abstract function
`kdf iterations password salt` returning the derived key bytes. -/

/-- Iteration count passed to `crypto.pbkdf2Sync` by both `hashPassword`
and `verifyPassword`. -/
def pbkdf2Iterations : Nat := 10000

/-- Exceptions `verifyPassword` can raise: `Buffer.from(undefined, "hex")`
raises a `TypeError`; `crypto.timingSafeEqual` on buffers of different byte
lengths raises a `RangeError`. -/
inductive JsError where
  | typeError
  | rangeError
deriving DecidableEq

instance {ε α : Type} [DecidableEq ε] [DecidableEq α] :
    DecidableEq (Except ε α) := fun
  | .error a, .error b =>
    match decEq a b with
    | isTrue h => isTrue (by rw [h])
    | isFalse h => isFalse (by intro hh; cases hh; exact h rfl)
  | .error _, .ok _ => isFalse (by intro h; cases h)
  | .ok _, .error _ => isFalse (by intro h; cases h)
  | .ok a, .ok b =>
    match decEq a b with
    | isTrue h => isTrue (by rw [h])
    | isFalse h => isFalse (by intro hh; cases hh; exact h rfl)

/-- The `hashPassword` function of `src/server.js`: the caller supplies the
salt drawn from `crypto.randomBytes(16).toString("hex")`; the result encodes
`salt:derivedKeyHex`. -/
def hashPassword (kdf : Nat → Str → Str → List Nat) (password salt : Str) : Str :=
  salt ++ ':' :: hexEncode (kdf pbkdf2Iterations password salt)

/-- The `verifyPassword` function of `src/server.js`: split `stored` at `:`,
re-derive the key, and compare with `crypto.timingSafeEqual`.  A missing
second component makes `Buffer.from(undefined, "hex")` throw; different byte
lengths make `timingSafeEqual` throw. -/
def verifyPassword (kdf : Nat → Str → Str → List Nat) (password stored : Str) :
    Except JsError Bool :=
  let parts := splitOnChar ':' stored
  let salt := parts.headD []
  match parts.get? 1 with
  | none => .error .typeError
  | some storedHash =>
    let hash := hexEncode (kdf pbkdf2Iterations password salt)
    let b1 := decodeHexPairs storedHash
    let b2 := decodeHexPairs hash
    if b1.length = b2.length then .ok (b1 == b2) else .error .rangeError

/-! ### JSON response bodies and HTTP responses

Every response body the auth routes build is a flat JSON object whose
values are strings, booleans, or `null`. -/

/-- Primitive JSON values appearing in the auth routes' response bodies. -/
inductive Jprim where
  | jnull
  | jbool (b : Bool)
  | jstr (s : Str)
deriving DecidableEq

/-- A flat JSON object: an ordered list of field-name / value pairs, exactly
as the object literals in the source are written. -/
abbrev Jbody := List (Str × Jprim)

/-- An HTTP response: status code (`res.status(...)`, default 200 for
`res.json(...)`) and JSON body. -/
structure HttpResponse where
  status : Nat
  body : Jbody
deriving DecidableEq

/-- Look up a field of a response body. -/
def getField (b : Jbody) (name : Str) : Option Jprim :=
  (b.find? (fun f => f.1 == name)).map (·.2)

/-- Whether a response body has a field of the given name. -/
def hasField (b : Jbody) (name : Str) : Bool :=
  b.any (fun f => f.1 == name)

/-- Body shape `{ error: msg }`. -/
def errBody (msg : String) : Jbody := [(str "error", .jstr (str msg))]

/-! ### Accounts and the Postgres storage helpers (`src/server.js`) -/

/-- One row of the `users` table (`id SERIAL`, `email`, `password_hash`). -/
structure Account where
  id : Nat
  email : Str
  password_hash : Str
deriving DecidableEq

/-- Function `findUserByEmail`: `SELECT ... WHERE LOWER(email) = LOWER($1)`, first
row or null. -/
def findUserByEmail (users : List Account) (email : Str) : Option Account :=
  users.find? (fun u => lowerStr u.email == lowerStr email)

/-- Function `createUser`: `INSERT INTO users (email, password_hash)` with a
serial id. -/
def createUser (users : List Account) (email passwordHash : Str) : List Account :=
  users ++ [⟨users.length + 1, email, passwordHash⟩]

/-- Effect of the `UPDATE` of `updateUserPassword` on one row. -/
def updateRow (email newHash : Str) (u : Account) : Account :=
  if lowerStr u.email == lowerStr email then
    { u with password_hash := newHash }
  else u

/-- Function `updateUserPassword`: `UPDATE users SET password_hash = $1 WHERE
LOWER(email) = LOWER($2)`. -/
def updateUserPassword (users : List Account) (email newHash : Str) : List Account :=
  users.map (updateRow email newHash)

/-- Function `deleteUser`: `DELETE FROM users WHERE LOWER(email) = LOWER($1)`. -/
def deleteUser (users : List Account) (email : Str) : List Account :=
  users.filter (fun u => !(lowerStr u.email == lowerStr email))

/-- JavaScript falsiness of a request-body string field (`!email`): the
field is absent or the empty string. -/
def strFalsy : Option Str → Bool
  | none => true
  | some s => s.isEmpty

/-- A mail handed to the nodemailer transporter (`to`, `subject`, `text`). -/
structure Mail where
  mailTo : Str
  subject : Str
  text : Str
deriving DecidableEq

/-! ### The auth route handlers (`src/server.js` lines 213-379)

Each handler takes the stored `users` table and the request-body fields and
returns the HTTP response together with the table after the request.  The
values the route draws from `crypto.randomBytes` (the salt passed to
`hashPassword`, and the temporary password in the forgot-password route) are
explicit arguments.  `dbFault` models the register route's `createUser`
query throwing: `some m` is an error with message `m` caught by the
route's `catch`. -/

/-- Route `app.post("/register")`. -/
def registerHandler (kdf : Nat → Str → Str → List Nat) (allowed : List Str)
    (users : List Account) (email password : Option Str) (salt : Str)
    (dbFault : Option Str) : HttpResponse × List Account :=
  if strFalsy email || strFalsy password then
    (⟨400, errBody "Email és jelszó kötelező."⟩, users)
  else
    let e := email.getD []
    let p := password.getD []
    if p.length < 6 then
      (⟨400, errBody "A jelszónak legalább 6 karakter hosszúnak kell lennie."⟩, users)
    else
      let emailLower := lowerStr (trimStr e)
      if !(allowed.contains emailLower) then
        (⟨400, errBody "Ezzel az email címmel nem lehet regisztrálni. Használd azt az email címet, amellyel az előfizetés készült, vagy vedd fel velünk a kapcsolatot."⟩, users)
      else
        match findUserByEmail users emailLower with
        | some _ => (⟨400, errBody "Ezzel az email címmel már van fiók."⟩, users)
        | none =>
          match dbFault with
          | some m =>
            (⟨500, [(str "error",
              .jstr (str "Szerver hiba regisztráció közben: " ++ m))]⟩, users)
          | none =>
            (⟨200, [(str "success", .jbool true),
                    (str "message", .jstr (str "Sikeres regisztráció!"))]⟩,
             createUser users emailLower (hashPassword kdf p salt))

/-- Route `app.post("/login")`. -/
def loginHandler (kdf : Nat → Str → Str → List Nat) (users : List Account)
    (email password : Option Str) : HttpResponse :=
  if strFalsy email || strFalsy password then
    ⟨400, errBody "Email és jelszó kötelező."⟩
  else
    match findUserByEmail users (email.getD []) with
    | none => ⟨401, errBody "Hibás email vagy jelszó."⟩
    | some user =>
      match verifyPassword kdf (password.getD []) user.password_hash with
      | .error _ => ⟨500, errBody "Szerver hiba bejelentkezés közben."⟩
      | .ok false => ⟨401, errBody "Hibás email vagy jelszó."⟩
      | .ok true => ⟨200, [(str "success", .jbool true),
                           (str "email", .jstr user.email)]⟩

/-- Route `app.post("/change-password")`. -/
def changePasswordHandler (kdf : Nat → Str → Str → List Nat)
    (users : List Account) (email oldPassword newPassword : Option Str)
    (salt : Str) : HttpResponse × List Account :=
  if strFalsy email || strFalsy oldPassword || strFalsy newPassword then
    (⟨400, errBody "Email, régi és új jelszó kötelező."⟩, users)
  else
    let e := email.getD []
    let np := newPassword.getD []
    if np.length < 6 then
      (⟨400, errBody "Az új jelszónak legalább 6 karakter hosszúnak kell lennie."⟩, users)
    else
      match findUserByEmail users e with
      | none => (⟨404, errBody "Felhasználó nem található."⟩, users)
      | some user =>
        match verifyPassword kdf (oldPassword.getD []) user.password_hash with
        | .error _ => (⟨500, errBody "Szerver hiba jelszóváltás közben."⟩, users)
        | .ok false => (⟨401, errBody "Hibás régi jelszó."⟩, users)
        | .ok true =>
          (⟨200, [(str "success", .jbool true),
                  (str "message", .jstr (str "Jelszó sikeresen megváltoztatva."))]⟩,
           updateUserPassword users e (hashPassword kdf np salt))

/-- Route `app.post("/delete-account")`. -/
def deleteAccountHandler (kdf : Nat → Str → Str → List Nat)
    (users : List Account) (email password : Option Str) :
    HttpResponse × List Account :=
  if strFalsy email || strFalsy password then
    (⟨400, errBody "Email és jelszó kötelező."⟩, users)
  else
    let e := email.getD []
    match findUserByEmail users e with
    | none => (⟨404, errBody "Felhasználó nem található."⟩, users)
    | some user =>
      match verifyPassword kdf (password.getD []) user.password_hash with
      | .error _ => (⟨500, errBody "Szerver hiba fiók törlése közben."⟩, users)
      | .ok false => (⟨401, errBody "Hibás jelszó."⟩, users)
      | .ok true =>
        (⟨200, [(str "success", .jbool true),
                (str "message", .jstr (str "Fiók törölve."))]⟩,
         deleteUser users e)

/-- Message of the forgot-password route, same in both branches. -/
def forgotMsg : Str :=
  str "Ha létezik ilyen email cím, új ideiglenes jelszót hoztunk létre."

/-- Route `app.post("/forgot-password")`.  Here `tempPassword` is the value drawn by
`crypto.randomBytes(4).toString("hex")` and `salt` the salt drawn inside
`hashPassword`.  The third component of the result collects the mails the
route hands to the nodemailer transporter; the route contains no
`transporter.sendMail` call. -/
def forgotPasswordHandler (kdf : Nat → Str → Str → List Nat)
    (users : List Account) (email : Option Str) (tempPassword salt : Str) :
    HttpResponse × List Account × List Mail :=
  if strFalsy email then
    (⟨400, errBody "Email kötelező."⟩, users, [])
  else
    let e := email.getD []
    match findUserByEmail users e with
    | none =>
      (⟨200, [(str "success", .jbool true),
              (str "message", .jstr forgotMsg),
              (str "tempPassword", .jnull)]⟩, users, [])
    | some _ =>
      (⟨200, [(str "success", .jbool true),
              (str "message", .jstr forgotMsg),
              (str "tempPassword", .jstr tempPassword)]⟩,
       updateUserPassword users e (hashPassword kdf tempPassword salt), [])

/-! ### Sequences of account-store operations

States reachable from the empty `users` table by the four mutating auth
routes.  Each operation carries the request-body fields, the snapshot of the
allow-list the register route reads, and the values the route draws from
`crypto.randomBytes`. -/

/-- One mutating request against the account store. -/
inductive Op where
  | register (allowed : List Str) (email password : Option Str) (salt : Str)
      (dbFault : Option Str)
  | changePassword (email oldPassword newPassword : Option Str) (salt : Str)
  | forgotPassword (email : Option Str) (tempPassword salt : Str)
  | deleteAccount (email password : Option Str)

/-- The `users` table after one request. -/
def applyOp (kdf : Nat → Str → Str → List Nat) (users : List Account) :
    Op → List Account
  | .register allowed email password salt dbFault =>
    (registerHandler kdf allowed users email password salt dbFault).2
  | .changePassword email oldPassword newPassword salt =>
    (changePasswordHandler kdf users email oldPassword newPassword salt).2
  | .forgotPassword email tempPassword salt =>
    (forgotPasswordHandler kdf users email tempPassword salt).2.1
  | .deleteAccount email password =>
    (deleteAccountHandler kdf users email password).2

/-- The `users` table after a sequence of requests. -/
def execOps (kdf : Nat → Str → Str → List Nat) (users : List Account) :
    List Op → List Account
  | [] => users
  | op :: rest => execOps kdf (applyOp kdf users op) rest

/-! ### Invariant: at most one account per normalised email -/

/-- Invariant maintained by the Postgres-variant routes: stored emails are
pairwise distinct under `LOWER`, and each stored email is already trimmed
and lower-cased. -/
def EmailInv (users : List Account) : Prop :=
  users.Pairwise (fun u v => lowerStr u.email ≠ lowerStr v.email) ∧
  ∀ u ∈ users, trimStr u.email = u.email ∧ lowerStr u.email = u.email

theorem updateRow_email (email newHash : Str) (u : Account) :
    (updateRow email newHash u).email = u.email := by
  rw [updateRow]
  split <;> rfl

theorem emailInv_updateUserPassword (users : List Account) (email newHash : Str)
    (h : EmailInv users) : EmailInv (updateUserPassword users email newHash) := by
  obtain ⟨h1, h2⟩ := h
  constructor
  · exact List.Pairwise.map _
      (fun a b hab => by rw [updateRow_email, updateRow_email]; exact hab) h1
  · intro u hu
    rw [updateUserPassword, List.mem_map] at hu
    obtain ⟨v, hv, hveq⟩ := hu
    rw [← hveq, updateRow_email]
    exact h2 v hv

theorem emailInv_deleteUser (users : List Account) (email : Str)
    (h : EmailInv users) : EmailInv (deleteUser users email) := by
  obtain ⟨h1, h2⟩ := h
  exact ⟨List.Pairwise.sublist (List.filter_sublist users) h1,
    fun u hu => h2 u (List.mem_of_mem_filter hu)⟩

theorem emailInv_createUser (users : List Account) (e hsh : Str)
    (hfind : findUserByEmail users (lowerStr (trimStr e)) = none)
    (h : EmailInv users) : EmailInv (createUser users (lowerStr (trimStr e)) hsh) := by
  obtain ⟨h1, h2⟩ := h
  have hnorm : lowerStr (trimStr e) = normEmail e := rfl
  have hne : ∀ u ∈ users, lowerStr u.email ≠ lowerStr (lowerStr (trimStr e)) := by
    intro u hu
    have := List.find?_eq_none.mp hfind u hu
    simp only [beq_eq_false_iff_ne, ne_eq, Bool.not_eq_true, beq_iff_eq] at this
    rw [hnorm] at this ⊢
    rw [lowerStr_normEmail] at this ⊢
    exact this
  constructor
  · rw [createUser, List.pairwise_append]
    refine ⟨h1, List.pairwise_singleton _ _, ?_⟩
    intro a ha b hb
    rw [List.mem_singleton] at hb
    rw [hb]
    exact hne a ha
  · intro u hu
    rw [createUser, List.mem_append, List.mem_singleton] at hu
    rcases hu with hu | hu
    · exact h2 u hu
    · rw [hu]
      refine ⟨?_, ?_⟩
      · show trimStr (lowerStr (trimStr e)) = lowerStr (trimStr e)
        rw [hnorm]
        exact trimStr_normEmail e
      · show lowerStr (lowerStr (trimStr e)) = lowerStr (trimStr e)
        rw [hnorm]
        exact lowerStr_normEmail e

theorem emailInv_applyOp (kdf : Nat → Str → Str → List Nat)
    (users : List Account) (op : Op) (h : EmailInv users) :
    EmailInv (applyOp kdf users op) := by
  cases op with
  | register allowed email password salt dbFault =>
    rw [applyOp, registerHandler]
    dsimp only
    repeat' split
    all_goals try exact h
    all_goals exact emailInv_createUser users _ _ (by assumption) h
  | changePassword email oldPassword newPassword salt =>
    rw [applyOp, changePasswordHandler]
    dsimp only
    repeat' split
    all_goals try exact h
    all_goals exact emailInv_updateUserPassword users _ _ h
  | forgotPassword email tempPassword salt =>
    rw [applyOp, forgotPasswordHandler]
    dsimp only
    repeat' split
    all_goals try exact h
    all_goals exact emailInv_updateUserPassword users _ _ h
  | deleteAccount email password =>
    rw [applyOp, deleteAccountHandler]
    dsimp only
    repeat' split
    all_goals try exact h
    all_goals exact emailInv_deleteUser users _ h

theorem emailInv_execOps (kdf : Nat → Str → Str → List Nat)
    (users : List Account) (ops : List Op) (h : EmailInv users) :
    EmailInv (execOps kdf users ops) := by
  induction ops generalizing users with
  | nil => exact h
  | cons op rest ih => exact ih _ (emailInv_applyOp kdf users op h)

/-! ### Invariant: stored credential hashes are hashing-function outputs -/

/-- Well-formedness of a salt drawn by
`crypto.randomBytes(16).toString("hex")`: 32 hex characters (16 bytes). -/
def saltOkB (s : Str) : Bool :=
  s.length == 32 && s.all (fun c => (hexVal c).isSome)

/-- Well-formedness of a temporary password drawn by
`crypto.randomBytes(4).toString("hex")`: 8 hex characters. -/
def tempPwOkB (s : Str) : Bool :=
  s.length == 8 && s.all (fun c => (hexVal c).isSome)

/-- The random values carried by an operation are of the shape the
`crypto.randomBytes` calls produce. -/
def opEntropyOk : Op → Bool
  | .register _ _ _ salt _ => saltOkB salt
  | .changePassword _ _ _ salt => saltOkB salt
  | .forgotPassword _ tempPassword salt => tempPwOkB tempPassword && saltOkB salt
  | .deleteAccount _ _ => true

/-- Every stored `password_hash` is an output of `hashPassword` for some
password and some well-formed salt. -/
def HashInv (kdf : Nat → Str → Str → List Nat) (users : List Account) : Prop :=
  ∀ u ∈ users, ∃ pw salt, saltOkB salt = true ∧
    u.password_hash = hashPassword kdf pw salt

theorem hashInv_updateUserPassword (kdf : Nat → Str → Str → List Nat)
    (users : List Account) (email pw salt : Str) (hsalt : saltOkB salt = true)
    (h : HashInv kdf users) :
    HashInv kdf (updateUserPassword users email (hashPassword kdf pw salt)) := by
  intro u hu
  rw [updateUserPassword, List.mem_map] at hu
  obtain ⟨v, hv, hveq⟩ := hu
  rw [← hveq, updateRow]
  split
  · exact ⟨pw, salt, hsalt, rfl⟩
  · exact h v hv

theorem hashInv_createUser (kdf : Nat → Str → Str → List Nat)
    (users : List Account) (e pw salt : Str) (hsalt : saltOkB salt = true)
    (h : HashInv kdf users) :
    HashInv kdf (createUser users e (hashPassword kdf pw salt)) := by
  intro u hu
  rw [createUser, List.mem_append, List.mem_singleton] at hu
  rcases hu with hu | hu
  · exact h u hu
  · exact ⟨pw, salt, hsalt, by rw [hu]⟩

theorem hashInv_deleteUser (kdf : Nat → Str → Str → List Nat)
    (users : List Account) (email : Str) (h : HashInv kdf users) :
    HashInv kdf (deleteUser users email) :=
  fun u hu => h u (List.mem_of_mem_filter hu)

theorem hashInv_applyOp (kdf : Nat → Str → Str → List Nat)
    (users : List Account) (op : Op) (hop : opEntropyOk op = true)
    (h : HashInv kdf users) : HashInv kdf (applyOp kdf users op) := by
  cases op with
  | register allowed email password salt dbFault =>
    rw [opEntropyOk] at hop
    rw [applyOp, registerHandler]
    dsimp only
    repeat' split
    all_goals try exact h
    all_goals exact hashInv_createUser kdf users _ _ salt hop h
  | changePassword email oldPassword newPassword salt =>
    rw [opEntropyOk] at hop
    rw [applyOp, changePasswordHandler]
    dsimp only
    repeat' split
    all_goals try exact h
    all_goals exact hashInv_updateUserPassword kdf users _ _ salt hop h
  | forgotPassword email tempPassword salt =>
    rw [opEntropyOk, Bool.and_eq_true] at hop
    rw [applyOp, forgotPasswordHandler]
    dsimp only
    repeat' split
    all_goals try exact h
    all_goals exact hashInv_updateUserPassword kdf users _ _ salt hop.2 h
  | deleteAccount email password =>
    rw [applyOp, deleteAccountHandler]
    dsimp only
    repeat' split
    all_goals try exact h
    all_goals exact hashInv_deleteUser kdf users _ h

theorem hashInv_execOps (kdf : Nat → Str → Str → List Nat)
    (users : List Account) (ops : List Op)
    (hops : ∀ op ∈ ops, opEntropyOk op = true) (h : HashInv kdf users) :
    HashInv kdf (execOps kdf users ops) := by
  induction ops generalizing users with
  | nil => exact h
  | cons op rest ih =>
    exact ih _ (fun o ho => hops o (List.mem_cons_of_mem op ho))
      (hashInv_applyOp kdf users op (hops op (List.mem_cons_self op rest)) h)

theorem hashPassword_ne_nil (kdf : Nat → Str → Str → List Nat)
    (pw salt : Str) : hashPassword kdf pw salt ≠ [] := by
  rw [hashPassword]
  cases salt <;> simp

/-! ### Round-trip facts about `hashPassword` and `verifyPassword` -/

theorem verifyPassword_hashPassword (kdf : Nat → Str → Str → List Nat)
    (p salt : Str) (hs : ':' ∉ salt) :
    verifyPassword kdf p (hashPassword kdf p salt) = .ok true := by
  have hsplit := splitOnChar_append ':' salt
    (hexEncode (kdf pbkdf2Iterations p salt)) hs
  rw [splitOnChar_of_not_mem ':' _ (colon_not_mem_hexEncode _)] at hsplit
  rw [hashPassword, verifyPassword, hsplit]
  simp

theorem hashPassword_salt_inj (kdf : Nat → Str → Str → List Nat) (p : Str)
    (s1 s2 : Str) (h1 : ':' ∉ s1) (h2 : ':' ∉ s2) (hne : s1 ≠ s2) :
    hashPassword kdf p s1 ≠ hashPassword kdf p s2 := by
  intro he
  have e1 := splitOnChar_append ':' s1 (hexEncode (kdf pbkdf2Iterations p s1)) h1
  have e2 := splitOnChar_append ':' s2 (hexEncode (kdf pbkdf2Iterations p s2)) h2
  rw [hashPassword, hashPassword] at he
  rw [he, e2] at e1
  exact hne (List.cons_eq_cons.mp e1).1.symm

/-! ### The SQLite variant (`src/database.js`) -/

/-- One row of the SQLite `users` table of `src/database.js`. -/
structure DbUser where
  name : Str
  email : Str
  passwordHash : Str
deriving DecidableEq

/-- Function `registerUser` of `src/database.js`: the duplicate check
`SELECT * FROM users WHERE email = ?` matches the email exactly
(case-sensitively, untrimmed); `bcrypt.hashSync` is the abstract `bhash`;
a duplicate makes the function throw `"Email already registered"`. -/
def registerUserDb (bhash : Str → Str) (users : List DbUser)
    (name email password : Str) : Except Str (List DbUser) :=
  match users.find? (fun u => u.email == email) with
  | some _ => .error (str "Email already registered")
  | none => .ok (users ++ [⟨name, email, bhash password⟩])

/-! ### Concrete values used to evaluate the model -/

/-- A concrete key-derivation function for evaluating the model (the claims
proved for an arbitrary `kdf` are instantiated with it). -/
def kdfZero : Nat → Str → Str → List Nat := fun _ _ _ => List.replicate 64 0

/-- A concrete well-formed salt: 32 hex characters, as
`crypto.randomBytes(16).toString("hex")` yields. -/
def saltA : Str := str "0123456789abcdef0123456789abcdef"

/-- A second concrete well-formed salt, distinct from `saltA`. -/
def saltB : Str := str "f0e1d2c3b4a5968778695a4b3c2d1e0f"

/-- A concrete temporary password: 8 hex characters, as
`crypto.randomBytes(4).toString("hex")` yields. -/
def tempPwA : Str := str "a1b2c3d4"

/-- The NotAuthorized body of the register route. -/
def notAuthorizedBody : Jbody :=
  errBody "Ezzel az email címmel nem lehet regisztrálni. Használd azt az email címet, amellyel az előfizetés készült, vagy vedd fel velünk a kapcsolatot."

/-- A concrete registered account whose hash verifies `secret1`. -/
def aliceAcct : Account :=
  ⟨1, str "alice@example.com", hashPassword kdfZero (str "secret1") saltA⟩

/-! ### Claims -/

/-- C1: evaluation of the forgot-password route at the failing input.  The
response body for a non-existing account (`tempPassword: null`) differs from
the response body for an existing account; for an existing account the
freshly generated temporary password is placed in the HTTP response body
itself, and the route hands no mail at all to the transporter — contrary to
the claim that both bodies are identical and the temporary password is
delivered only via the Notifier. -/
theorem c1_forgot_password_leaks_account_existence :
    (forgotPasswordHandler kdfZero [] (some (str "ghost@example.com"))
        tempPwA saltA).1.body ≠
      (forgotPasswordHandler kdfZero
        [⟨1, str "ghost@example.com", hashPassword kdfZero (str "secret1") saltA⟩]
        (some (str "ghost@example.com")) tempPwA saltA).1.body ∧
    getField (forgotPasswordHandler kdfZero
        [⟨1, str "ghost@example.com", hashPassword kdfZero (str "secret1") saltA⟩]
        (some (str "ghost@example.com")) tempPwA saltA).1.body
        (str "tempPassword") = some (.jstr tempPwA) ∧
    (forgotPasswordHandler kdfZero
        [⟨1, str "ghost@example.com", hashPassword kdfZero (str "secret1") saltA⟩]
        (some (str "ghost@example.com")) tempPwA saltA).2.2 = [] := by
  refine ⟨by decide, by decide, by decide⟩

/-- C2: for any stored state and any login request with non-empty email and
password, the login route answers with the same 401 status and the same
generic error body both when the email matches no account and when the
password fails verification against the matched account's hash. -/
theorem c2_login_invalid_credentials_generic (kdf : Nat → Str → Str → List Nat)
    (users : List Account) (e p : Str) (he : e ≠ []) (hp : p ≠ [])
    (h : findUserByEmail users e = none ∨
      ∃ u, findUserByEmail users e = some u ∧
        verifyPassword kdf p u.password_hash = .ok false) :
    loginHandler kdf users (some e) (some p) =
      ⟨401, errBody "Hibás email vagy jelszó."⟩ := by
  have hfe : strFalsy (some e) = false := by
    cases e with
    | nil => exact absurd rfl he
    | cons c cs => rfl
  have hfp : strFalsy (some p) = false := by
    cases p with
    | nil => exact absurd rfl hp
    | cons c cs => rfl
  rw [loginHandler, if_neg (by rw [hfe, hfp]; simp)]
  simp only [Option.getD_some]
  rcases h with hn | ⟨u, hu, hv⟩
  · rw [hn]
  · rw [hu]
    dsimp only
    rw [hv]

/-- C2 witness: the theorem applied at a concrete state and request. -/
theorem c2_witness :
    (str "a@b.com" ≠ ([] : Str)) ∧ (str "x" ≠ ([] : Str)) ∧
    loginHandler kdfZero [] (some (str "a@b.com")) (some (str "x")) =
      ⟨401, errBody "Hibás email vagy jelszó."⟩ :=
  ⟨by decide, by decide,
    c2_login_invalid_credentials_generic kdfZero [] (str "a@b.com") (str "x")
      (by decide) (by decide) (Or.inl rfl)⟩

/-- C3 counterexample: on a stored value with no `:` separator,
`verifyPassword` raises (models `Buffer.from(undefined, "hex")` throwing a
TypeError) instead of returning false, refuting the claim that it returns
false without raising on malformed stored values. -/
theorem c3_counterexample :
    verifyPassword kdfZero (str "password") (str "deadbeef") =
      .error .typeError ∧
    verifyPassword kdfZero (str "password") (str "deadbeef") ≠ .ok false := by
  refine ⟨by decide, by decide⟩

/-- C3 (amended): on a malformed stored value `verifyPassword` raises rather
than returning false: a TypeError when `stored` has no `:` separator, and a
RangeError when the stored key part decodes to a byte length different from
the freshly derived key's. -/
theorem c3_verify_malformed_raises (kdf : Nat → Str → Str → List Nat)
    (p stored : Str) :
    (':' ∉ stored → verifyPassword kdf p stored = .error .typeError) ∧
    (∀ salt storedHash rest, splitOnChar ':' stored = salt :: storedHash :: rest →
      (decodeHexPairs storedHash).length ≠
        (decodeHexPairs (hexEncode (kdf pbkdf2Iterations p salt))).length →
      verifyPassword kdf p stored = .error .rangeError) := by
  constructor
  · intro h
    rw [verifyPassword, splitOnChar_of_not_mem ':' stored h]
    rfl
  · intro salt storedHash rest hsp hlen
    rw [verifyPassword, hsp]
    simp only [List.get?_cons_succ, List.get?_cons_zero, List.headD_cons]
    rw [if_neg hlen]

/-- C3 witness: the amended theorem applied at a concrete malformed input. -/
theorem c3_witness :
    (':' ∉ str "nosalt") ∧
    verifyPassword kdfZero (str "pw") (str "nosalt") = .error .typeError :=
  ⟨by decide,
    (c3_verify_malformed_raises kdfZero (str "pw") (str "nosalt")).1 (by decide)⟩

/-- C4: for every password and every pair of distinct colon-free salts (as
the hex-encoded salts drawn by `crypto.randomBytes` always are),
`verify(p, hash(p))` is true under either salt, and the two hash calls
produce different encoded strings. -/
theorem c4_hash_verify_contract (kdf : Nat → Str → Str → List Nat)
    (p s1 s2 : Str) (h1 : ':' ∉ s1) (h2 : ':' ∉ s2) (hne : s1 ≠ s2) :
    verifyPassword kdf p (hashPassword kdf p s1) = .ok true ∧
    verifyPassword kdf p (hashPassword kdf p s2) = .ok true ∧
    hashPassword kdf p s1 ≠ hashPassword kdf p s2 :=
  ⟨verifyPassword_hashPassword kdf p s1 h1,
   verifyPassword_hashPassword kdf p s2 h2,
   hashPassword_salt_inj kdf p s1 s2 h1 h2 hne⟩

/-- C4 witness: the theorem applied at a concrete password and two concrete
fresh salts. -/
theorem c4_witness :
    (':' ∉ saltA) ∧ (':' ∉ saltB) ∧ saltA ≠ saltB ∧
    (verifyPassword kdfZero (str "secret1")
        (hashPassword kdfZero (str "secret1") saltA) = .ok true ∧
     verifyPassword kdfZero (str "secret1")
        (hashPassword kdfZero (str "secret1") saltB) = .ok true ∧
     hashPassword kdfZero (str "secret1") saltA ≠
        hashPassword kdfZero (str "secret1") saltB) :=
  ⟨by decide, by decide, by decide,
   c4_hash_verify_contract kdfZero (str "secret1") saltA saltB
     (by decide) (by decide) (by decide)⟩

/-- C5 counterexample: a registration whose normalized email is absent from
the allow-list but whose password is invalid (shorter than 6 characters)
fails with the InvalidInput password-length error, not with the
NotAuthorized error, refuting "fails with the NotAuthorized error regardless
of the password supplied".  No account is persisted. -/
theorem c5_counterexample :
    registerHandler kdfZero [] [] (some (str "x@y.com")) (some (str "abc"))
        saltA none =
      (⟨400, errBody "A jelszónak legalább 6 karakter hosszúnak kell lennie."⟩,
       []) ∧
    errBody "A jelszónak legalább 6 karakter hosszúnak kell lennie." ≠
      notAuthorizedBody := by
  refine ⟨by decide, by decide⟩

/-- C5 (amended): a registration request that passes input validation
(email and password present, password length at least 6) and whose
normalized email is absent from the allow-list fails with the NotAuthorized
error and persists no account; with an invalid password the route instead
fails earlier with an InvalidInput error, likewise persisting nothing. -/
theorem c5_register_not_allowlisted (kdf : Nat → Str → Str → List Nat)
    (allowed : List Str) (users : List Account) (email password : Option Str)
    (salt : Str) (dbFault : Option Str)
    (he : strFalsy email = false) (hp : strFalsy password = false)
    (hlen : ¬ (password.getD []).length < 6)
    (hna : allowed.contains (lowerStr (trimStr (email.getD []))) = false) :
    registerHandler kdf allowed users email password salt dbFault =
      (⟨400, notAuthorizedBody⟩, users) := by
  rw [registerHandler, if_neg (by rw [he, hp]; simp)]
  dsimp only
  rw [if_neg hlen, if_pos (by rw [hna]; rfl)]
  rfl

/-- C5 witness: the amended theorem applied at a concrete valid request
whose email is not on the allow-list. -/
theorem c5_witness :
    strFalsy (some (str "x@y.com")) = false ∧
    strFalsy (some (str "secret1")) = false ∧
    ¬ ((some (str "secret1")).getD []).length < 6 ∧
    ([str "a@b.com"] : List Str).contains
      (lowerStr (trimStr ((some (str "x@y.com")).getD []))) = false ∧
    registerHandler kdfZero [str "a@b.com"] [] (some (str "x@y.com"))
        (some (str "secret1")) saltA none = (⟨400, notAuthorizedBody⟩, []) :=
  ⟨by decide, by decide, by decide, by decide,
   c5_register_not_allowlisted kdfZero [str "a@b.com"] [] (some (str "x@y.com"))
     (some (str "secret1")) saltA none (by decide) (by decide) (by decide)
     (by decide)⟩

/-- C6 counterexample: a successful login returns
`{success: true, email}` with no `token` field (and no expiry), refuting
the claim that the success response includes a signed, time-bounded session
credential. -/
theorem c6_counterexample :
    loginHandler kdfZero [aliceAcct] (some (str "alice@example.com"))
        (some (str "secret1")) =
      ⟨200, [(str "success", .jbool true),
             (str "email", .jstr (str "alice@example.com"))]⟩ ∧
    hasField (loginHandler kdfZero [aliceAcct] (some (str "alice@example.com"))
        (some (str "secret1"))).body (str "token") = false := by
  refine ⟨by decide, by decide⟩

/-- C6 (amended): for every login with a registered email and the correct
password, the success response is exactly `200 {success: true, email}`:
the public account email with no session token (no signed credential and no
expiry is issued anywhere in the route). -/
theorem c6_login_success_no_token (kdf : Nat → Str → Str → List Nat)
    (users : List Account) (e p : Str) (u : Account)
    (he : e ≠ []) (hp : p ≠ [])
    (hu : findUserByEmail users e = some u)
    (hv : verifyPassword kdf p u.password_hash = .ok true) :
    loginHandler kdf users (some e) (some p) =
      ⟨200, [(str "success", .jbool true), (str "email", .jstr u.email)]⟩ ∧
    hasField (loginHandler kdf users (some e) (some p)).body
      (str "token") = false := by
  have hfe : strFalsy (some e) = false := by
    cases e with
    | nil => exact absurd rfl he
    | cons c cs => rfl
  have hfp : strFalsy (some p) = false := by
    cases p with
    | nil => exact absurd rfl hp
    | cons c cs => rfl
  have hmain : loginHandler kdf users (some e) (some p) =
      ⟨200, [(str "success", .jbool true), (str "email", .jstr u.email)]⟩ := by
    rw [loginHandler, if_neg (by rw [hfe, hfp]; simp)]
    simp only [Option.getD_some]
    rw [hu]
    dsimp only
    rw [hv]
  exact ⟨hmain, by rw [hmain]; rfl⟩

/-- C6 witness: the amended theorem applied at a concrete account and
correct password. -/
theorem c6_witness :
    (str "alice@example.com" ≠ ([] : Str)) ∧ (str "secret1" ≠ ([] : Str)) ∧
    findUserByEmail [aliceAcct] (str "alice@example.com") = some aliceAcct ∧
    verifyPassword kdfZero (str "secret1") aliceAcct.password_hash = .ok true ∧
    (loginHandler kdfZero [aliceAcct] (some (str "alice@example.com"))
        (some (str "secret1")) =
      ⟨200, [(str "success", .jbool true),
             (str "email", .jstr aliceAcct.email)]⟩ ∧
     hasField (loginHandler kdfZero [aliceAcct]
        (some (str "alice@example.com")) (some (str "secret1"))).body
        (str "token") = false) :=
  ⟨by decide, by decide, by decide, by decide,
   c6_login_success_no_token kdfZero [aliceAcct] (str "alice@example.com")
     (str "secret1") aliceAcct (by decide) (by decide) (by decide) (by decide)⟩

/-- C7 counterexample: in the SQLite variant (`src/database.js`), whose
`registerUser` looks up the email with an exact, case-sensitive match, two
registrations whose emails differ only in case both create accounts, so two
live accounts with the same normalized email coexist — refuting the claim
for the repository's register operations. -/
theorem c7_counterexample :
    registerUserDb id [] (str "Dom") (str "A@b.com") (str "secret1") =
      .ok [⟨str "Dom", str "A@b.com", str "secret1"⟩] ∧
    registerUserDb id [⟨str "Dom", str "A@b.com", str "secret1"⟩]
        (str "Dom") (str "a@b.com") (str "secret1") =
      .ok [⟨str "Dom", str "A@b.com", str "secret1"⟩,
           ⟨str "Dom", str "a@b.com", str "secret1"⟩] ∧
    (str "A@b.com") ≠ (str "a@b.com") ∧
    normEmail (str "A@b.com") = normEmail (str "a@b.com") := by
  refine ⟨by decide, by decide, by decide, by decide⟩

/-- C7 (amended): in the Postgres variant (`src/server.js`), in every state
reachable from the empty table by any sequence of register,
change-password, forgot-password and delete-account requests, at most one
live account exists per normalized (trimmed, lower-cased) email: the
register route normalizes the email and checks uniqueness case-insensitively
before inserting.  In the SQLite variant the lookup is exact-match and
case-sensitive, so the property fails there (see the counterexample). -/
theorem c7_norm_email_unique (kdf : Nat → Str → Str → List Nat)
    (ops : List Op) :
    (execOps kdf [] ops).Pairwise
      (fun u v => normEmail u.email ≠ normEmail v.email) := by
  obtain ⟨h1, h2⟩ := emailInv_execOps kdf [] ops ⟨List.Pairwise.nil, by simp⟩
  refine List.Pairwise.imp_of_mem ?_ h1
  intro a b ha hb hR hnorm
  obtain ⟨hta, hla⟩ := h2 a ha
  obtain ⟨htb, hlb⟩ := h2 b hb
  apply hR
  have hna : normEmail a.email = lowerStr a.email := by rw [normEmail, hta]
  have hnb : normEmail b.email = lowerStr b.email := by rw [normEmail, htb]
  rw [← hna, ← hnb]
  exact hnorm

/-- C8: evaluation of the register route at the failing input.  When the
`createUser` insert throws an internal error (here with message
"connection refused"), the 500 response body contains the exception message
verbatim — contrary to the claim that the generic 500 carries no internal
detail.  The source even marks this with "TEMP: show real error to debug". -/
theorem c8_register_500_leaks_message :
    (registerHandler kdfZero [str "alice@example.com"] []
        (some (str "alice@example.com")) (some (str "secret1")) saltA
        (some (str "connection refused"))).1 =
      ⟨500, [(str "error",
        .jstr (str "Szerver hiba regisztráció közben: connection refused"))]⟩ ∧
    (str "connection refused") <:+:
      (str "Szerver hiba regisztráció közben: connection refused") := by
  refine ⟨by decide, by decide⟩

/-- C9: in every state reachable from the empty table by operations whose
random draws have the shape `crypto.randomBytes` produces, every stored
`password_hash` is non-empty and is exactly an output of `hashPassword` —
`salt:derivedKeyHex` with a well-formed 16-byte salt and a key derived with
the fixed iteration count 10000 ≥ 10000; register, change-password and
forgot-password only ever write such outputs.  -/
theorem c9_credential_hash_invariant (kdf : Nat → Str → Str → List Nat)
    (ops : List Op) (hops : ∀ op ∈ ops, opEntropyOk op = true) :
    10000 ≤ pbkdf2Iterations ∧
    ∀ u ∈ execOps kdf [] ops, u.password_hash ≠ [] ∧
      ∃ pw salt, saltOkB salt = true ∧
        u.password_hash = hashPassword kdf pw salt := by
  refine ⟨le_refl _, ?_⟩
  intro u hu
  obtain ⟨pw, salt, hsalt, hh⟩ :=
    hashInv_execOps kdf [] ops hops (by intro u hu; simp at hu) u hu
  exact ⟨hh ▸ hashPassword_ne_nil kdf pw salt, pw, salt, hsalt, hh⟩

/-- Concrete operation sequence: one successful registration. -/
def opsA : List Op :=
  [.register [str "alice@example.com"] (some (str "alice@example.com"))
    (some (str "secret1")) saltA none]

/-- C9 witness: the theorem applied to a concrete registration sequence. -/
theorem c9_witness :
    (∀ op ∈ opsA, opEntropyOk op = true) ∧
    (10000 ≤ pbkdf2Iterations ∧
     ∀ u ∈ execOps kdfZero [] opsA, u.password_hash ≠ [] ∧
       ∃ pw salt, saltOkB salt = true ∧
         u.password_hash = hashPassword kdfZero pw salt) :=
  ⟨by decide, c9_credential_hash_invariant kdfZero opsA (by decide)⟩

/-- C10: a forgot-password request whose body has no email field returns
400 with the InvalidInput error body and leaves the stored accounts
unchanged (and sends no mail). -/
theorem c10_forgot_password_missing_email (kdf : Nat → Str → Str → List Nat)
    (users : List Account) (tempPassword salt : Str) :
    forgotPasswordHandler kdf users none tempPassword salt =
      (⟨400, errBody "Email kötelező."⟩, users, []) := rfl

end ShopBackend
